import Mathlib

/-!
Shallow embedding of the ESP-data graph retrieval and assembly layer.

The repository queries a NebulaGraph store of IT-infrastructure assets and
reshapes the decoded rows into display structures.  The embedding below
translates, from the Go source:

* the null-safe cell decoders (`safeString` / `safeBool` / `safeInt` of
  `internal/nebula/client.go`, and the `getString` / `getBool` / `getInt`
  closures of the client version embedded in `api/handler.go`);
* the `map[string]interface{}` accessors `mapStr` / `mapBool` / `mapInt` of
  `internal/graph/model.go`;
* the asset-identifier validator `ValidateAssetID` (pattern `^A\d{4,5}$`);
* the graph assembler `BuildGraph` of `internal/graph/model.go` (node
  de-duplication with first-registration-wins, edge de-duplication keyed by
  `src + "|" + dst`) together with the response builders
  (`BuildNeighborsList`, `BuildEdgeDetailResponse`);
* the session-scoped query operations of `internal/nebula/client.go`
  (`openSession` plus the five `Query*` functions) and of the embedded
  client in `api/handler.go` (`QueryAssetDetail`, `QueryNeighbors`,
  `QueryAssetsList`), instrumented with an explicit effect trace so that
  session acquisition/release discipline and "no query on the reject path"
  become provable statements.

Go maps are modelled as association lists in insertion order; only the
key-value contents of a Go map are deterministic, and every statement proved
below depends only on those contents (counts, membership, per-key lookup),
never on iteration order.  Machine integers stay well inside 64 bits here,
so they are modelled as `Int` without wrap-around.
-/

namespace ESPData

/-- A decoded Nebula result-cell value (the contents of a
`nebula.ValueWrapper`): SQL NULL, a string, a boolean, or an integer. -/
inductive Value where
  | null : Value
  | str (s : String) : Value
  | boolv (b : Bool) : Value
  | intv (n : Int) : Value
deriving DecidableEq

/-- A decoded result row: the list of column values.
`record.GetValueByIndex i` is `r.get? i` (an out-of-range index is the
error return of `GetValueByIndex`). -/
abbrev Record := List Value

/-- A Go `map[string]interface{}` of decoded values, modelled as an
association list in insertion order. -/
abbrev MapSI := List (String × Value)

/-- First-match lookup in a string-keyed association list (Go map indexing
`m[key]`). -/
def lookupAssoc {α : Type} : List (String × α) → String → Option α
  | [], _ => none
  | (k, v) :: rest, key => if k = key then some v else lookupAssoc rest key

/-- `mapStr` of `internal/graph/model.go`: the string value under `key`,
or `""` when the key is missing or the value is not a string. -/
def mapStr (m : MapSI) (key : String) : String :=
  match lookupAssoc m key with
  | some (Value.str s) => s
  | _ => ""

/-- `mapBool` of `internal/graph/model.go`: the boolean value under `key`,
or `false` when missing or not a boolean. -/
def mapBool (m : MapSI) (key : String) : Bool :=
  match lookupAssoc m key with
  | some (Value.boolv b) => b
  | _ => false

/-- `mapInt` of `internal/graph/model.go`: the numeric value under `key`,
or `0` when missing or not numeric. -/
def mapInt (m : MapSI) (key : String) : Int :=
  match lookupAssoc m key with
  | some (Value.intv n) => n
  | _ => 0

/-- `safeString` of `internal/nebula/client.go`: `""` when the index is out
of range or the cell is not a string (`AsString` fails on NULL too). -/
def safeString (r : Record) (idx : Nat) : String :=
  match r.get? idx with
  | some (Value.str s) => s
  | _ => ""

/-- `safeBool` of `internal/nebula/client.go`: `false` when the index is out
of range or the cell is not a boolean. -/
def safeBool (r : Record) (idx : Nat) : Bool :=
  match r.get? idx with
  | some (Value.boolv b) => b
  | _ => false

/-- `safeInt` of `internal/nebula/client.go`: the supplied default when the
index is out of range or the cell is not an integer (e.g. 4 for priority). -/
def safeInt (r : Record) (idx : Nat) (def_ : Int) : Int :=
  match r.get? idx with
  | some (Value.intv n) => n
  | _ => def_

/-- The `getString` closure of the client embedded in `api/handler.go`:
`""` on error or NULL; the `AsString` error is discarded, so a non-string
cell also yields the zero value `""`. -/
def getString (r : Record) (idx : Nat) : String :=
  match r.get? idx with
  | some (Value.str s) => s
  | _ => ""

/-- The `getBool` closure of the client embedded in `api/handler.go`. -/
def getBool (r : Record) (idx : Nat) : Bool :=
  match r.get? idx with
  | some (Value.boolv b) => b
  | _ => false

/-- The `getInt` closure of the client embedded in `api/handler.go`:
`0` on error or NULL; the `AsInt` error is discarded, so a non-integer cell
also yields the zero value `0`. -/
def getInt (r : Record) (idx : Nat) : Int :=
  match r.get? idx with
  | some (Value.intv n) => n
  | _ => 0

/-- The `getNullableString` closure of `QueryAssetDetail` in the client
embedded in `api/handler.go`: `none` on NULL (or absent column), otherwise
the string (a non-string cell yields the zero value `""`). -/
def getNullableString (r : Record) (idx : Nat) : Option String :=
  match r.get? idx with
  | some Value.null => none
  | some (Value.str s) => some s
  | some _ => some ""
  | none => none

/-- The `getNullableInt` closure of `QueryAssetDetail` in the client
embedded in `api/handler.go`. -/
def getNullableInt (r : Record) (idx : Nat) : Option Int :=
  match r.get? idx with
  | some Value.null => none
  | some (Value.intv n) => some n
  | some _ => some (0 : Int)
  | none => none

/-- `ValidateAssetID` of `api/handler.go` (REQ-025): `MatchString` of the
compiled pattern `^A\d{4,5}$` — the letter `A` followed by exactly 4 or 5
ASCII digits and nothing else (`\d` is `[0-9]` in Go RE2, and `^`/`$`
anchor at the ends of the text). -/
def ValidateAssetID (id : String) : Bool :=
  match id.data with
  | [] => false
  | c :: ds =>
      c == 'A' && (ds.length == 4 || ds.length == 5) &&
        ds.all (fun d => '0' ≤ d && d ≤ '9')

/-- The specification's regular expression `^A\d{4,5}$`, stated
declaratively: the whole string is the letter `A` followed by 4 or 5
decimal digits. -/
def MatchesAssetIDPattern (s : String) : Prop :=
  ∃ ds : List Char, s.data = 'A' :: ds ∧ (ds.length = 4 ∨ ds.length = 5) ∧
    ∀ c ∈ ds, '0' ≤ c ∧ c ≤ '9'

/-! ### Connectivity rows and the graph assembler (`internal/graph/model.go`) -/

/-- `nebula.AssetRow` of `internal/nebula/client.go`: one row of the
enriched connectivity query, carrying both endpoints of a `connects_to`
edge together with their display properties. -/
structure AssetRow where
  SrcAssetID : String
  SrcAssetName : String
  SrcIsEntrance : Bool
  SrcIsTarget : Bool
  SrcPriority : Int
  SrcHasVulnerability : Bool
  SrcAssetType : String
  DstAssetID : String
  DstAssetName : String
  DstIsEntrance : Bool
  DstIsTarget : Bool
  DstPriority : Int
  DstHasVulnerability : Bool
  DstAssetType : String
deriving DecidableEq

/-- The local `nodeInfo` struct of `BuildGraph` in
`internal/graph/model.go`. -/
structure nodeInfo where
  Name : String
  AssetType : String
  IsEntrance : Bool
  IsTarget : Bool
  Priority : Int
  HasVulnerability : Bool
deriving DecidableEq

/-- The source-endpoint attributes of a row, as passed to `addNode`. -/
def srcInfo (r : AssetRow) : nodeInfo :=
  { Name := r.SrcAssetName, AssetType := r.SrcAssetType
  , IsEntrance := r.SrcIsEntrance, IsTarget := r.SrcIsTarget
  , Priority := r.SrcPriority, HasVulnerability := r.SrcHasVulnerability }

/-- The destination-endpoint attributes of a row, as passed to `addNode`. -/
def dstInfo (r : AssetRow) : nodeInfo :=
  { Name := r.DstAssetName, AssetType := r.DstAssetType
  , IsEntrance := r.DstIsEntrance, IsTarget := r.DstIsTarget
  , Priority := r.DstPriority, HasVulnerability := r.DstHasVulnerability }

/-- The `addNode` closure of `BuildGraph`: skip the empty identifier; when
the identifier is already registered keep the existing entry (first
registration wins); otherwise register the new entry.  The Go
`nodeSet map[string]nodeInfo` is an association list in insertion order. -/
def addNode (set : List (String × nodeInfo)) (id : String) (info : nodeInfo) :
    List (String × nodeInfo) :=
  if id = "" then set
  else
    match lookupAssoc set id with
    | some _ => set
    | none => set ++ [(id, info)]

/-- The node-registration loop of `BuildGraph`: for each row, register the
source endpoint and then the destination endpoint. -/
def buildNodeSetAux : List AssetRow → List (String × nodeInfo) → List (String × nodeInfo)
  | [], set => set
  | r :: rest, set =>
      buildNodeSetAux rest
        (addNode (addNode set r.SrcAssetID (srcInfo r)) r.DstAssetID (dstInfo r))

/-- `CyNodeData` of `internal/graph/model.go`. -/
structure CyNodeData where
  ID : String
  Label : String
  AssetType : String
  IsEntrance : Bool
  IsTarget : Bool
  Priority : Int
  HasVulnerability : Bool
deriving DecidableEq

/-- `CyNode` of `internal/graph/model.go`. -/
structure CyNode where
  Data : CyNodeData
deriving DecidableEq

/-- `CyEdgeData` of `internal/graph/model.go`. -/
structure CyEdgeData where
  Source : String
  Target : String
deriving DecidableEq

/-- `CyEdge` of `internal/graph/model.go`. -/
structure CyEdge where
  Data : CyEdgeData
deriving DecidableEq

/-- `CyGraph` of `internal/graph/model.go`. -/
structure CyGraph where
  Nodes : List CyNode
  Edges : List CyEdge
deriving DecidableEq

/-- One iteration of the node-list loop of `BuildGraph`: `label := id`,
overridden by the registered name when it is non-empty. -/
def cyNodeOf (id : String) (info : nodeInfo) : CyNode :=
  { Data :=
    { ID := id
    , Label := if info.Name = "" then id else info.Name
    , AssetType := info.AssetType
    , IsEntrance := info.IsEntrance
    , IsTarget := info.IsTarget
    , Priority := info.Priority
    , HasVulnerability := info.HasVulnerability } }

/-- The node-list loop of `BuildGraph`. -/
def buildNodes (set : List (String × nodeInfo)) : List CyNode :=
  set.map fun p => cyNodeOf p.1 p.2

/-- The edge de-duplication key of `BuildGraph`:
`row.SrcAssetID + "|" + row.DstAssetID`. -/
def edgeKey (src dst : String) : String := src ++ "|" ++ dst

/-- The edge-list loop of `BuildGraph`: at most one visual edge per key
(the Go `edgeSeen map[string]bool` is a membership list). -/
def buildEdgesAux : List AssetRow → List String → List CyEdge
  | [], _ => []
  | r :: rest, seen =>
      if edgeKey r.SrcAssetID r.DstAssetID ∈ seen then buildEdgesAux rest seen
      else
        { Data := { Source := r.SrcAssetID, Target := r.DstAssetID } } ::
          buildEdgesAux rest (edgeKey r.SrcAssetID r.DstAssetID :: seen)

/-- `BuildGraph` of `internal/graph/model.go`: de-duplicated nodes (first
registration wins, empty identifiers skipped) and de-duplicated edges (one
visual edge per `src + "|" + dst` key). -/
def BuildGraph (rows : List AssetRow) : CyGraph :=
  { Nodes := buildNodes (buildNodeSetAux rows [])
  , Edges := buildEdgesAux rows [] }

/-- Specification-side restatement for the first-seen rule: the attributes
of the first row, in list order, that mentions `id` as an endpoint (the
source endpoint of a row is registered before its destination). -/
def specFirstSeenInfo : List AssetRow → String → Option nodeInfo
  | [], _ => none
  | r :: rest, id =>
      if r.SrcAssetID = id then some (srcInfo r)
      else if r.DstAssetID = id then some (dstInfo r)
      else specFirstSeenInfo rest id

/-- All endpoint identifiers of a row list, in row order (source before
destination), including duplicates and empty strings. -/
def endpointIds : List AssetRow → List String
  | [] => []
  | r :: rest => r.SrcAssetID :: r.DstAssetID :: endpointIds rest

/-- Specification-side count used by the node-count property: the number of
distinct identifiers appearing across all rows' source and destination
fields. -/
def specDistinctIdCount (rows : List AssetRow) : Nat :=
  (endpointIds rows).dedup.length

/-- The number of distinct non-empty identifiers appearing across all rows'
source and destination fields. -/
def specDistinctNonEmptyIdCount (rows : List AssetRow) : Nat :=
  (((endpointIds rows).filter (fun s => s ≠ "")).dedup).length

/-- The nodes of a graph carrying a given identifier. -/
def nodesFor (g : CyGraph) (id : String) : List CyNode :=
  g.Nodes.filter (fun n => n.Data.ID == id)

/-- The edges of a graph for a given ordered `(source, target)` pair. -/
def edgesFor (g : CyGraph) (src dst : String) : List CyEdge :=
  g.Edges.filter (fun e => e.Data.Source == src && e.Data.Target == dst)

/-- Key-set insertion step mirroring `addNode`: skip the empty string and
already-present keys, otherwise append. -/
def insertNew (acc : List String) (x : String) : List String :=
  if x = "" then acc else if x ∈ acc then acc else acc ++ [x]

/-- Key-set insertion fold over a list of identifiers. -/
def insertAll : List String → List String → List String
  | [], acc => acc
  | x :: xs, acc => insertAll xs (insertNew acc x)

/-! ### Response builders (`internal/graph/model.go`) -/

/-- `Neighbor` of `internal/graph/model.go`. -/
structure Neighbor where
  NeighborID : String
  Direction : String
deriving DecidableEq

/-- `NeighborsResponse` of `internal/graph/model.go`. -/
structure NeighborsResponse where
  Neighbors : List Neighbor
  Total : Nat
deriving DecidableEq

/-- `BuildNeighborsList` of `internal/graph/model.go`: one `Neighbor` per
raw query map, `Total` the length of that list. -/
def BuildNeighborsList (neighbors : List MapSI) : NeighborsResponse :=
  { Neighbors := neighbors.map fun n =>
      { NeighborID := mapStr n "neighbor_id", Direction := mapStr n "direction" }
  , Total := (neighbors.map fun n =>
      ({ NeighborID := mapStr n "neighbor_id", Direction := mapStr n "direction" } : Neighbor)).length }

/-- `EdgeAssetSummary` of `internal/graph/model.go`. -/
structure EdgeAssetSummary where
  AssetID : String
  AssetName : String
  AssetDescription : String
deriving DecidableEq

/-- `EdgeConnection` of `internal/graph/model.go`. -/
structure EdgeConnection where
  ConnectionProtocol : String
  ConnectionPort : String
deriving DecidableEq

/-- `EdgeDetailResponse` of `internal/graph/model.go`. -/
structure EdgeDetailResponse where
  Source : EdgeAssetSummary
  Target : EdgeAssetSummary
  Connections : List EdgeConnection
  Total : Nat
deriving DecidableEq

/-- `BuildEdgeDetailResponse` of `internal/graph/model.go`: one
`EdgeConnection` per raw connection map, `Total` the length of that list. -/
def BuildEdgeDetailResponse (srcDetail dstDetail : MapSI) (connections : List MapSI) :
    EdgeDetailResponse :=
  let conns := connections.map fun c =>
    ({ ConnectionProtocol := mapStr c "connection_protocol"
     , ConnectionPort := mapStr c "connection_port" } : EdgeConnection)
  { Source :=
      { AssetID := mapStr srcDetail "asset_id"
      , AssetName := mapStr srcDetail "asset_name"
      , AssetDescription := mapStr srcDetail "asset_description" }
  , Target :=
      { AssetID := mapStr dstDetail "asset_id"
      , AssetName := mapStr dstDetail "asset_name"
      , AssetDescription := mapStr dstDetail "asset_description" }
  , Connections := conns
  , Total := conns.length }

/-! ### The stored `connects_to` edges and the per-pair connection list -/

/-- A stored `connects_to` edge: NebulaGraph identifies an edge by
`(source, edge type, rank, destination)`; protocol and port are its
properties (schema `ED006`). -/
structure StoredEdge where
  src : String
  dst : String
  rank : Nat
  protocol : String
  port : String
deriving DecidableEq

/-- The storage invariant of the schema and §6 of the specification: two
stored edges with the same ordered `(source, target)` pair have distinct
ranks. -/
def RanksDistinct (E : List StoredEdge) : Prop :=
  E.Pairwise fun e₁ e₂ => e₁.src = e₂.src → e₁.dst = e₂.dst → e₁.rank ≠ e₂.rank

/-- Modelled from the spec: the query function for operation (f) of §4.2 —
"all parallel connections between one identifier pair"
(`connectionsBetween(source, target)` of §4.4, feeding
`BuildEdgeDetailResponse`) — is not present under `src/`; only its response
builder is.  Per the spec it returns *all* ranked `connects_to` edges for
the ordered pair, unfiltered. -/
def connectionsBetween (E : List StoredEdge) (src dst : String) : List StoredEdge :=
  E.filter fun e => e.src == src && e.dst == dst

/-- The raw row map the edge-detail query hands to
`BuildEdgeDetailResponse` for one stored connection. -/
def connToMap (e : StoredEdge) : MapSI :=
  [("connection_protocol", Value.str e.protocol), ("connection_port", Value.str e.port)]

/-! ### Session-scoped query operations, with an effect trace

The query operations of `internal/nebula/client.go` (and of the client
version embedded in `api/handler.go`) are sequential programs over a
connection pool and a graph store.  The store is abstracted as the outcome
of each statement; every operation returns its result together with the
trace of pool/executor effects it performed, so that resource discipline is
a statement about traces.  Go's `defer session.Release()` runs on every
exit path after the acquisition, and is translated by appending a `release`
effect on each such path. -/

/-- The statement templates the layer executes (§4.2: one template per
retrieval operation, plus the per-session `USE` namespace selection). -/
inductive Stmt where
  | useSpace : Stmt
  | assetsQuery : Stmt
  | assetsListQuery : Stmt
  | detailQuery (id : String) : Stmt
  | neighborsQuery (id : String) : Stmt
  | typesQuery : Stmt
deriving DecidableEq

/-- The outcome of executing one statement: a transport error (`err != nil`),
an unsuccessful result set (`!IsSucceed()`), or decoded rows. -/
inductive ExecOutcome where
  | execError (msg : String) : ExecOutcome
  | notSucceeded (msg : String) : ExecOutcome
  | rows (rs : List Record) : ExecOutcome

/-- One observable effect against the pool or the query executor. -/
inductive Effect where
  | acquireOk : Effect
  | acquireFail : Effect
  | release : Effect
  | exec (s : Stmt) : Effect
deriving DecidableEq

/-- The environment of one request: whether `pool.GetSession` succeeds, the
outcome of the `USE` statement, and the outcome of each query template. -/
structure Store where
  sessionAvail : Bool
  useOutcome : ExecOutcome
  queryOutcome : Stmt → ExecOutcome

/-- The number of successful session acquisitions in a trace. -/
def countAcquires : List Effect → Nat
  | [] => 0
  | Effect.acquireOk :: rest => countAcquires rest + 1
  | _ :: rest => countAcquires rest

/-- The number of session releases in a trace. -/
def countReleases : List Effect → Nat
  | [] => 0
  | Effect.release :: rest => countReleases rest + 1
  | _ :: rest => countReleases rest

/-- A trace releases every session it acquired. -/
def sessionBalanced (t : List Effect) : Prop :=
  countAcquires t = countReleases t

namespace client

/-- `openSession` of `internal/nebula/client.go`: obtain a session and
switch to the configured space; on `USE` failure the session is released
before the error returns.  On success the session is still held (the
caller's `defer` releases it). -/
def openSession (st : Store) : Except String Unit × List Effect :=
  if st.sessionAvail then
    match st.useOutcome with
    | ExecOutcome.execError m =>
        (Except.error ("failed to USE space: " ++ m),
         [Effect.acquireOk, Effect.exec Stmt.useSpace, Effect.release])
    | ExecOutcome.notSucceeded m =>
        (Except.error ("USE space failed: " ++ m),
         [Effect.acquireOk, Effect.exec Stmt.useSpace, Effect.release])
    | ExecOutcome.rows _ =>
        (Except.ok (), [Effect.acquireOk, Effect.exec Stmt.useSpace])
  else
    (Except.error "failed to get session", [Effect.acquireFail])

/-- The row decoder of `QueryAssets` in `internal/nebula/client.go`:
fourteen `safe*` extractions, with default 4 for both priority columns. -/
def decodeAssetRow (rec : Record) : AssetRow :=
  { SrcAssetID := safeString rec 0
  , SrcAssetName := safeString rec 1
  , SrcIsEntrance := safeBool rec 2
  , SrcIsTarget := safeBool rec 3
  , SrcPriority := safeInt rec 4 4
  , SrcHasVulnerability := safeBool rec 5
  , SrcAssetType := safeString rec 6
  , DstAssetID := safeString rec 7
  , DstAssetName := safeString rec 8
  , DstIsEntrance := safeBool rec 9
  , DstIsTarget := safeBool rec 10
  , DstPriority := safeInt rec 11 4
  , DstHasVulnerability := safeBool rec 12
  , DstAssetType := safeString rec 13 }

/-- `QueryAssets` of `internal/nebula/client.go`: open a session (released
by `defer` on every later exit), execute the enriched connectivity query,
decode each row. -/
def QueryAssets (st : Store) : Except String (List AssetRow) × List Effect :=
  match openSession st with
  | (Except.error e, t) => (Except.error e, t)
  | (Except.ok _, t) =>
      match st.queryOutcome Stmt.assetsQuery with
      | ExecOutcome.execError m =>
          (Except.error ("query execution failed: " ++ m),
           t ++ [Effect.exec Stmt.assetsQuery, Effect.release])
      | ExecOutcome.notSucceeded m =>
          (Except.error ("query failed: " ++ m),
           t ++ [Effect.exec Stmt.assetsQuery, Effect.release])
      | ExecOutcome.rows rs =>
          (Except.ok (rs.map decodeAssetRow),
           t ++ [Effect.exec Stmt.assetsQuery, Effect.release])

/-- The row decoder of `QueryAssetsWithDetails` in
`internal/nebula/client.go` (priority default 4). -/
def decodeAssetsListMap (rec : Record) : MapSI :=
  [ ("asset_id", Value.str (safeString rec 0))
  , ("asset_name", Value.str (safeString rec 1))
  , ("is_entrance", Value.boolv (safeBool rec 2))
  , ("is_target", Value.boolv (safeBool rec 3))
  , ("priority", Value.intv (safeInt rec 4 4))
  , ("has_vulnerability", Value.boolv (safeBool rec 5))
  , ("asset_type", Value.str (safeString rec 6)) ]

/-- `QueryAssetsWithDetails` of `internal/nebula/client.go`. -/
def QueryAssetsWithDetails (st : Store) : Except String (List MapSI) × List Effect :=
  match openSession st with
  | (Except.error e, t) => (Except.error e, t)
  | (Except.ok _, t) =>
      match st.queryOutcome Stmt.assetsListQuery with
      | ExecOutcome.execError m =>
          (Except.error ("query execution failed: " ++ m),
           t ++ [Effect.exec Stmt.assetsListQuery, Effect.release])
      | ExecOutcome.notSucceeded m =>
          (Except.error ("query failed: " ++ m),
           t ++ [Effect.exec Stmt.assetsListQuery, Effect.release])
      | ExecOutcome.rows rs =>
          (Except.ok (rs.map decodeAssetsListMap),
           t ++ [Effect.exec Stmt.assetsListQuery, Effect.release])

/-- The single-row decoder of `QueryAssetDetail` in
`internal/nebula/client.go`: priority defaults to 4 (column 6), ttb to 10
(column 8). -/
def decodeAssetDetailMap (rec : Record) : MapSI :=
  [ ("asset_id", Value.str (safeString rec 0))
  , ("asset_name", Value.str (safeString rec 1))
  , ("asset_description", Value.str (safeString rec 2))
  , ("asset_note", Value.str (safeString rec 3))
  , ("is_entrance", Value.boolv (safeBool rec 4))
  , ("is_target", Value.boolv (safeBool rec 5))
  , ("priority", Value.intv (safeInt rec 6 4))
  , ("has_vulnerability", Value.boolv (safeBool rec 7))
  , ("ttb", Value.intv (safeInt rec 8 10))
  , ("asset_type", Value.str (safeString rec 9))
  , ("segment_name", Value.str (safeString rec 10)) ]

/-- `QueryAssetDetail` of `internal/nebula/client.go`: zero rows is the
"asset not found" error; otherwise the first row is decoded.  The `defer`
releases the session on every exit after acquisition. -/
def QueryAssetDetail (st : Store) (assetID : String) : Except String MapSI × List Effect :=
  match openSession st with
  | (Except.error e, t) => (Except.error e, t)
  | (Except.ok _, t) =>
      match st.queryOutcome (Stmt.detailQuery assetID) with
      | ExecOutcome.execError m =>
          (Except.error ("query execution failed: " ++ m),
           t ++ [Effect.exec (Stmt.detailQuery assetID), Effect.release])
      | ExecOutcome.notSucceeded m =>
          (Except.error ("query failed: " ++ m),
           t ++ [Effect.exec (Stmt.detailQuery assetID), Effect.release])
      | ExecOutcome.rows [] =>
          (Except.error "asset not found",
           t ++ [Effect.exec (Stmt.detailQuery assetID), Effect.release])
      | ExecOutcome.rows (rec :: _) =>
          (Except.ok (decodeAssetDetailMap rec),
           t ++ [Effect.exec (Stmt.detailQuery assetID), Effect.release])

/-- The row decoder of `QueryNeighbors` in `internal/nebula/client.go`. -/
def decodeNeighborMap (rec : Record) : MapSI :=
  [ ("neighbor_id", Value.str (safeString rec 0))
  , ("direction", Value.str (safeString rec 1)) ]

/-- `QueryNeighbors` of `internal/nebula/client.go`: the bidirectional
GO/UNION traversal; zero rows is a success with an empty list. -/
def QueryNeighbors (st : Store) (assetID : String) : Except String (List MapSI) × List Effect :=
  match openSession st with
  | (Except.error e, t) => (Except.error e, t)
  | (Except.ok _, t) =>
      match st.queryOutcome (Stmt.neighborsQuery assetID) with
      | ExecOutcome.execError m =>
          (Except.error ("query execution failed: " ++ m),
           t ++ [Effect.exec (Stmt.neighborsQuery assetID), Effect.release])
      | ExecOutcome.notSucceeded m =>
          (Except.error ("query failed: " ++ m),
           t ++ [Effect.exec (Stmt.neighborsQuery assetID), Effect.release])
      | ExecOutcome.rows rs =>
          (Except.ok (rs.map decodeNeighborMap),
           t ++ [Effect.exec (Stmt.neighborsQuery assetID), Effect.release])

/-- The row decoder of `QueryAssetTypes` in `internal/nebula/client.go`. -/
def decodeTypeMap (rec : Record) : MapSI :=
  [ ("type_id", Value.str (safeString rec 0))
  , ("type_name", Value.str (safeString rec 1)) ]

/-- `QueryAssetTypes` of `internal/nebula/client.go`. -/
def QueryAssetTypes (st : Store) : Except String (List MapSI) × List Effect :=
  match openSession st with
  | (Except.error e, t) => (Except.error e, t)
  | (Except.ok _, t) =>
      match st.queryOutcome Stmt.typesQuery with
      | ExecOutcome.execError m =>
          (Except.error ("query execution failed: " ++ m),
           t ++ [Effect.exec Stmt.typesQuery, Effect.release])
      | ExecOutcome.notSucceeded m =>
          (Except.error ("query failed: " ++ m),
           t ++ [Effect.exec Stmt.typesQuery, Effect.release])
      | ExecOutcome.rows rs =>
          (Except.ok (rs.map decodeTypeMap),
           t ++ [Effect.exec Stmt.typesQuery, Effect.release])

end client

/-- The store-side meaning of the REQ-023 neighbors template executed by the
query layer (`GO FROM id OVER connects_to YIELD dst, "outbound" UNION GO
FROM id OVER connects_to REVERSELY YIELD src, "inbound"`), evaluated over
the stored `connects_to` edges; `UNION` removes duplicate rows. -/
def goNeighborsRows (E : List StoredEdge) (id : String) : List Record :=
  (((E.filter fun e => e.src == id).map fun e =>
      [Value.str e.dst, Value.str "outbound"]) ++
   ((E.filter fun e => e.dst == id).map fun e =>
      [Value.str e.src, Value.str "inbound"])).dedup

namespace clientB

/-- `AssetListItem` of the client embedded in `api/handler.go`. -/
structure AssetListItem where
  AssetID : String
  AssetName : String
  AssetType : String
  IsEntrance : Bool
  IsTarget : Bool
  Priority : Int
  HasVulnerability : Bool
deriving DecidableEq

/-- The per-row decode of `QueryAssetsList` in the client embedded in
`api/handler.go` (columns 0‥6; integer default 0). -/
def decodeAssetListItem (rec : Record) : AssetListItem :=
  { AssetID := getString rec 0
  , AssetName := getString rec 1
  , IsEntrance := getBool rec 2
  , IsTarget := getBool rec 3
  , Priority := getInt rec 4
  , HasVulnerability := getBool rec 5
  , AssetType := getString rec 6 }

/-- The decode-and-filter loop of `QueryAssetsList` in the client embedded
in `api/handler.go`: a row is skipped when the type filter is non-empty and
differs from the item's type, or when the search filter is non-empty and
equals neither the item's ID nor its name. -/
def queryAssetsListItems : List Record → String → String → List AssetListItem
  | [], _, _ => []
  | rec :: rest, assetType, search =>
      let item := decodeAssetListItem rec
      if assetType != "" && item.AssetType != assetType then
        queryAssetsListItems rest assetType search
      else if search != "" && item.AssetID != search && item.AssetName != search then
        queryAssetsListItems rest assetType search
      else
        item :: queryAssetsListItems rest assetType search

/-- `AssetDetail` of the client embedded in `api/handler.go` (nullable
columns are `Option`). -/
structure AssetDetail where
  AssetID : String
  AssetName : String
  AssetDescription : Option String
  AssetNote : Option String
  AssetType : Option String
  SegmentName : Option String
  IsEntrance : Bool
  IsTarget : Bool
  Priority : Int
  HasVulnerability : Bool
  TTB : Option Int
deriving DecidableEq

/-- The single-row decode of `QueryAssetDetail` in the client embedded in
`api/handler.go`. -/
def decodeAssetDetail (rec : Record) : AssetDetail :=
  { AssetID := getString rec 0
  , AssetName := getString rec 1
  , AssetDescription := getNullableString rec 2
  , AssetNote := getNullableString rec 3
  , IsEntrance := getBool rec 4
  , IsTarget := getBool rec 5
  , Priority := getInt rec 6
  , HasVulnerability := getBool rec 7
  , TTB := getNullableInt rec 8
  , AssetType := getNullableString rec 9
  , SegmentName := getNullableString rec 10 }

/-- `QueryAssetDetail` of the client embedded in `api/handler.go`
(REQ-022/REQ-025): the identifier is validated *before* `pool.GetSession`
and before any statement executes; on the reject path the trace is empty. -/
def QueryAssetDetail (st : Store) (assetID : String) :
    Except String AssetDetail × List Effect :=
  if ValidateAssetID assetID = false then
    (Except.error ("invalid asset ID format: " ++ assetID), [])
  else if st.sessionAvail then
    match st.useOutcome with
    | ExecOutcome.execError m =>
        (Except.error ("failed to USE space: " ++ m),
         [Effect.acquireOk, Effect.exec Stmt.useSpace, Effect.release])
    | ExecOutcome.notSucceeded m =>
        (Except.error ("USE space failed: " ++ m),
         [Effect.acquireOk, Effect.exec Stmt.useSpace, Effect.release])
    | ExecOutcome.rows _ =>
        match st.queryOutcome (Stmt.detailQuery assetID) with
        | ExecOutcome.execError m =>
            (Except.error ("query execution failed: " ++ m),
             [Effect.acquireOk, Effect.exec Stmt.useSpace,
              Effect.exec (Stmt.detailQuery assetID), Effect.release])
        | ExecOutcome.notSucceeded m =>
            (Except.error ("query failed: " ++ m),
             [Effect.acquireOk, Effect.exec Stmt.useSpace,
              Effect.exec (Stmt.detailQuery assetID), Effect.release])
        | ExecOutcome.rows [] =>
            (Except.error ("asset not found: " ++ assetID),
             [Effect.acquireOk, Effect.exec Stmt.useSpace,
              Effect.exec (Stmt.detailQuery assetID), Effect.release])
        | ExecOutcome.rows (rec :: _) =>
            (Except.ok (decodeAssetDetail rec),
             [Effect.acquireOk, Effect.exec Stmt.useSpace,
              Effect.exec (Stmt.detailQuery assetID), Effect.release])
  else
    (Except.error "failed to get session", [Effect.acquireFail])

/-- `NeighborItem` of the client embedded in `api/handler.go`. -/
structure NeighborItem where
  NeighborID : String
  Direction : String
deriving DecidableEq

/-- The per-row decode of `QueryNeighbors` in the client embedded in
`api/handler.go` (errors discarded, so a non-string cell yields `""`). -/
def decodeNeighborItem (rec : Record) : NeighborItem :=
  { NeighborID := safeString rec 0, Direction := safeString rec 1 }

/-- `QueryNeighbors` of the client embedded in `api/handler.go`
(REQ-023/REQ-025): the identifier is validated *before* `pool.GetSession`
and before any statement executes; on the reject path the trace is empty. -/
def QueryNeighbors (st : Store) (assetID : String) :
    Except String (List NeighborItem) × List Effect :=
  if ValidateAssetID assetID = false then
    (Except.error ("invalid asset ID format: " ++ assetID), [])
  else if st.sessionAvail then
    match st.useOutcome with
    | ExecOutcome.execError m =>
        (Except.error ("failed to USE space: " ++ m),
         [Effect.acquireOk, Effect.exec Stmt.useSpace, Effect.release])
    | ExecOutcome.notSucceeded m =>
        (Except.error ("USE space failed: " ++ m),
         [Effect.acquireOk, Effect.exec Stmt.useSpace, Effect.release])
    | ExecOutcome.rows _ =>
        match st.queryOutcome (Stmt.neighborsQuery assetID) with
        | ExecOutcome.execError m =>
            (Except.error ("query execution failed: " ++ m),
             [Effect.acquireOk, Effect.exec Stmt.useSpace,
              Effect.exec (Stmt.neighborsQuery assetID), Effect.release])
        | ExecOutcome.notSucceeded m =>
            (Except.error ("query failed: " ++ m),
             [Effect.acquireOk, Effect.exec Stmt.useSpace,
              Effect.exec (Stmt.neighborsQuery assetID), Effect.release])
        | ExecOutcome.rows rs =>
            (Except.ok (rs.map decodeNeighborItem),
             [Effect.acquireOk, Effect.exec Stmt.useSpace,
              Effect.exec (Stmt.neighborsQuery assetID), Effect.release])
  else
    (Except.error "failed to get session", [Effect.acquireFail])

end clientB

/-- A convenience constructor for connectivity rows: only the endpoint
identifiers vary, every other attribute is the column default. -/
def mkRow (src dst : String) : AssetRow :=
  { SrcAssetID := src, SrcAssetName := "", SrcIsEntrance := false
  , SrcIsTarget := false, SrcPriority := 4, SrcHasVulnerability := false
  , SrcAssetType := ""
  , DstAssetID := dst, DstAssetName := "", DstIsEntrance := false
  , DstIsTarget := false, DstPriority := 4, DstHasVulnerability := false
  , DstAssetType := "" }

/-- A string avoiding the edge-key separator character `'|'`. -/
def pipeFree (s : String) : Prop := '|' ∉ s.data

instance (s : String) : Decidable (pipeFree s) :=
  inferInstanceAs (Decidable ('|' ∉ s.data))

instance (E : List StoredEdge) : Decidable (RanksDistinct E) := by
  unfold RanksDistinct
  infer_instance

/-- Column `idx` of a record is absent or SQL NULL (the two conditions under
which the integer decoders substitute their default). -/
def absentOrNull (r : Record) (idx : Nat) : Prop :=
  r.get? idx = none ∨ r.get? idx = some Value.null

instance (r : Record) (idx : Nat) : Decidable (absentOrNull r idx) := by
  unfold absentOrNull
  infer_instance

/-- A healthy store whose every query yields zero rows. -/
def emptyStore : Store :=
  { sessionAvail := true
  , useOutcome := ExecOutcome.rows []
  , queryOutcome := fun _ => ExecOutcome.rows [] }

/-- An eleven-column record whose every cell is SQL NULL (the REQ-022
detail row of an asset none of whose nullable properties are set). -/
def nullDetailRecord : Record :=
  [ Value.null, Value.null, Value.null, Value.null, Value.null, Value.null
  , Value.null, Value.null, Value.null, Value.null, Value.null ]

/-- A healthy store whose detail query yields the all-NULL record. -/
def nullDetailStore : Store :=
  { sessionAvail := true
  , useOutcome := ExecOutcome.rows []
  , queryOutcome := fun _ => ExecOutcome.rows [nullDetailRecord] }

/-- Rows whose identifiers collide on the edge de-duplication key:
`"x" + "|" + "|y"` and `"x|" + "|" + "y"` are the same string, and the
pair `("x|", "y")` is shared by two rows. -/
def rowsPipe : List AssetRow := [mkRow "x" "|y", mkRow "x|" "y", mkRow "x|" "y"]

/-- An endpoint of `"A00001"` reached from an empty source identifier. -/
def rowsEmptySrc : List AssetRow := [mkRow "" "A00001"]

/-- The §8 scenario: two parallel rows for the pair
`("A00001", "A00002")`. -/
def rowsParallel : List AssetRow := [mkRow "A00001" "A00002", mkRow "A00001" "A00002"]

/-- The §8 scenario's stored edges: TCP/443 at rank 0 and UDP/1194 at
rank 1 between the same ordered pair. -/
def edgesParallel : List StoredEdge :=
  [ { src := "A00001", dst := "A00002", rank := 0, protocol := "TCP", port := "443" }
  , { src := "A00001", dst := "A00002", rank := 1, protocol := "UDP", port := "1194" } ]

/-- Two rows mentioning `"A00001"` with different source names: the first
names it `"first"`, the second `"second"`. -/
def rowsFirstSeen : List AssetRow :=
  [ { mkRow "A00001" "A00002" with SrcAssetName := "first" }
  , { mkRow "A00001" "A00003" with SrcAssetName := "second" } ]

/-- The attributes of the first row of `rowsFirstSeen` for `"A00001"`. -/
def infoFirstSeen : nodeInfo :=
  { Name := "first", AssetType := "", IsEntrance := false, IsTarget := false
  , Priority := 4, HasVulnerability := false }

/-! ## Helper lemmas about the node set -/

theorem lookupAssoc_append_some {α : Type} {l : List (String × α)} {key : String}
    {x : α} (k : String) (v : α) (h : lookupAssoc l key = some x) :
    lookupAssoc (l ++ [(k, v)]) key = some x := by
  induction l with
  | nil => simp [lookupAssoc] at h
  | cons p rest ih =>
    obtain ⟨k', v'⟩ := p
    by_cases hk : k' = key
    · simp only [lookupAssoc, if_pos hk] at h
      simp only [List.cons_append, lookupAssoc, if_pos hk]
      exact h
    · simp only [lookupAssoc, if_neg hk] at h
      simp only [List.cons_append, lookupAssoc, if_neg hk]
      exact ih h

theorem lookupAssoc_append_none {α : Type} {l : List (String × α)} {key : String}
    (k : String) (v : α) (h : lookupAssoc l key = none) :
    lookupAssoc (l ++ [(k, v)]) key = if k = key then some v else none := by
  induction l with
  | nil => simp [lookupAssoc]
  | cons p rest ih =>
    obtain ⟨k', v'⟩ := p
    by_cases hk : k' = key
    · simp only [lookupAssoc, if_pos hk] at h
      exact Option.noConfusion h
    · simp only [lookupAssoc, if_neg hk] at h
      simp only [List.cons_append, lookupAssoc, if_neg hk]
      exact ih h

theorem lookupAssoc_eq_none_iff {α : Type} (l : List (String × α)) (key : String) :
    lookupAssoc l key = none ↔ key ∉ l.map Prod.fst := by
  induction l with
  | nil => simp [lookupAssoc]
  | cons p rest ih =>
    obtain ⟨k, v⟩ := p
    by_cases h : k = key
    · simp [lookupAssoc, h]
    · simp [lookupAssoc, h, ih, Ne.symm h]

theorem lookupAssoc_addNode_some {set : List (String × nodeInfo)} {key : String}
    {x : nodeInfo} (id : String) (info : nodeInfo)
    (h : lookupAssoc set key = some x) :
    lookupAssoc (addNode set id info) key = some x := by
  unfold addNode
  by_cases h0 : id = ""
  · simp [h0, h]
  · cases hl : lookupAssoc set id with
    | some y => simp [h0, hl, h]
    | none =>
      simp only [if_neg h0, hl]
      exact lookupAssoc_append_some id info h

theorem lookupAssoc_addNode_none {set : List (String × nodeInfo)} {key : String}
    (id : String) (info : nodeInfo) (hkey : key ≠ "")
    (h : lookupAssoc set key = none) :
    lookupAssoc (addNode set id info) key = if id = key then some info else none := by
  unfold addNode
  by_cases h0 : id = ""
  · have hne : ¬(("" : String) = key) := fun hh => hkey hh.symm
    simp [h0, h, hne]
  · cases hl : lookupAssoc set id with
    | some y =>
      have hne : ¬(id = key) := by
        intro hh
        rw [hh, h] at hl
        exact Option.noConfusion hl
      simp [h0, hl, h, hne]
    | none =>
      simp only [if_neg h0, hl]
      exact lookupAssoc_append_none id info h

theorem lookupAssoc_buildNodeSetAux_some (rows : List AssetRow) :
    ∀ {set : List (String × nodeInfo)} {key : String} {x : nodeInfo},
      lookupAssoc set key = some x →
      lookupAssoc (buildNodeSetAux rows set) key = some x := by
  induction rows with
  | nil => intro set key x h; exact h
  | cons r rest ih =>
    intro set key x h
    exact ih (lookupAssoc_addNode_some _ _ (lookupAssoc_addNode_some _ _ h))

theorem lookupAssoc_buildNodeSetAux_none (rows : List AssetRow) :
    ∀ {set : List (String × nodeInfo)} {key : String}, key ≠ "" →
      lookupAssoc set key = none →
      lookupAssoc (buildNodeSetAux rows set) key = specFirstSeenInfo rows key := by
  induction rows with
  | nil =>
    intro set key _ h
    simpa [buildNodeSetAux, specFirstSeenInfo] using h
  | cons r rest ih =>
    intro set key hkey h
    simp only [buildNodeSetAux, specFirstSeenInfo]
    by_cases hs : r.SrcAssetID = key
    · have h1 : lookupAssoc (addNode set r.SrcAssetID (srcInfo r)) key = some (srcInfo r) := by
        rw [lookupAssoc_addNode_none _ _ hkey h, if_pos hs]
      rw [lookupAssoc_buildNodeSetAux_some rest (lookupAssoc_addNode_some _ _ h1)]
      rw [if_pos hs]
    · have h1 : lookupAssoc (addNode set r.SrcAssetID (srcInfo r)) key = none := by
        rw [lookupAssoc_addNode_none _ _ hkey h, if_neg hs]
      by_cases hd : r.DstAssetID = key
      · have h2 : lookupAssoc
            (addNode (addNode set r.SrcAssetID (srcInfo r)) r.DstAssetID (dstInfo r)) key =
            some (dstInfo r) := by
          rw [lookupAssoc_addNode_none _ _ hkey h1, if_pos hd]
        rw [lookupAssoc_buildNodeSetAux_some rest h2]
        rw [if_neg hs, if_pos hd]
      · have h2 : lookupAssoc
            (addNode (addNode set r.SrcAssetID (srcInfo r)) r.DstAssetID (dstInfo r)) key =
            none := by
          rw [lookupAssoc_addNode_none _ _ hkey h1, if_neg hd]
        rw [ih hkey h2]
        rw [if_neg hs, if_neg hd]

theorem keys_nodup_addNode (set : List (String × nodeInfo)) (id : String)
    (info : nodeInfo) (h : (set.map Prod.fst).Nodup) :
    ((addNode set id info).map Prod.fst).Nodup := by
  by_cases h0 : id = ""
  · simpa [addNode, h0] using h
  · cases hl : lookupAssoc set id with
    | some x => simpa [addNode, h0, hl] using h
    | none =>
      simp only [addNode, if_neg h0, hl, List.map_append, List.map_cons, List.map_nil]
      refine List.Nodup.append h (List.nodup_singleton id) ?_
      intro a ha hb
      simp only [List.mem_singleton] at hb
      subst hb
      exact (lookupAssoc_eq_none_iff set a).mp hl ha

theorem keys_nodup_buildNodeSetAux (rows : List AssetRow) :
    ∀ set : List (String × nodeInfo), (set.map Prod.fst).Nodup →
      ((buildNodeSetAux rows set).map Prod.fst).Nodup := by
  induction rows with
  | nil => intro set h; exact h
  | cons r rest ih =>
    intro set h
    exact ih _ (keys_nodup_addNode _ _ _ (keys_nodup_addNode _ _ _ h))

theorem fst_ne_empty_addNode (set : List (String × nodeInfo)) (id : String)
    (info : nodeInfo) (h : ∀ p ∈ set, p.1 ≠ "") :
    ∀ p ∈ addNode set id info, p.1 ≠ "" := by
  by_cases h0 : id = ""
  · simpa [addNode, h0] using h
  · cases hl : lookupAssoc set id with
    | some x => simpa [addNode, h0, hl] using h
    | none =>
      simp only [addNode, if_neg h0, hl]
      intro p hp
      rcases List.mem_append.mp hp with h1 | h1
      · exact h p h1
      · simp only [List.mem_singleton] at h1
        subst h1
        exact h0

theorem fst_ne_empty_buildNodeSetAux (rows : List AssetRow) :
    ∀ set : List (String × nodeInfo), (∀ p ∈ set, p.1 ≠ "") →
      ∀ p ∈ buildNodeSetAux rows set, p.1 ≠ "" := by
  induction rows with
  | nil => intro set h; exact h
  | cons r rest ih =>
    intro set h
    exact ih _ (fst_ne_empty_addNode _ _ _ (fst_ne_empty_addNode _ _ _ h))

theorem filter_buildNodes_not_mem (set : List (String × nodeInfo)) (id : String)
    (h : id ∉ set.map Prod.fst) :
    (buildNodes set).filter (fun n => n.Data.ID == id) = [] := by
  apply List.filter_eq_nil_iff.mpr
  intro n hn
  obtain ⟨q, hq, rfl⟩ := List.mem_map.mp hn
  simp only [cyNodeOf, beq_iff_eq]
  intro hqk
  exact h (hqk ▸ List.mem_map.mpr ⟨q, hq, rfl⟩)

theorem filter_buildNodes_some :
    ∀ (set : List (String × nodeInfo)) (id : String) (info : nodeInfo),
      (set.map Prod.fst).Nodup → lookupAssoc set id = some info →
      (buildNodes set).filter (fun n => n.Data.ID == id) = [cyNodeOf id info] := by
  intro set
  induction set with
  | nil => intro id info _ h; simp [lookupAssoc] at h
  | cons p rest ih =>
    intro id info hnd h
    obtain ⟨k, v⟩ := p
    simp only [List.map_cons, List.nodup_cons] at hnd
    by_cases hk : k = id
    · subst hk
      simp only [lookupAssoc, if_true, Option.some.injEq] at h
      subst h
      have hrest : (buildNodes rest).filter (fun n => n.Data.ID == k) = [] :=
        filter_buildNodes_not_mem rest k hnd.1
      have hpred : ((cyNodeOf k v).Data.ID == k) = true := by simp [cyNodeOf]
      simp only [buildNodes, List.map_cons, List.filter_cons] at hrest ⊢
      simp [hpred, hrest]
    · simp only [lookupAssoc, if_neg hk] at h
      have hih := ih id info hnd.2 h
      have hpred : ((cyNodeOf k v).Data.ID == id) = false := by simp [cyNodeOf, hk]
      simp only [buildNodes, List.map_cons, List.filter_cons] at hih ⊢
      simp [hpred, hih]

theorem keys_addNode (set : List (String × nodeInfo)) (id : String) (info : nodeInfo) :
    (addNode set id info).map Prod.fst = insertNew (set.map Prod.fst) id := by
  by_cases h0 : id = ""
  · simp [addNode, insertNew, h0]
  · cases hl : lookupAssoc set id with
    | some x =>
      have hm : id ∈ set.map Prod.fst := by
        by_contra hc
        rw [← lookupAssoc_eq_none_iff] at hc
        rw [hc] at hl
        exact Option.noConfusion hl
      simp [addNode, insertNew, h0, hl, hm]
    | none =>
      have hm : id ∉ set.map Prod.fst := (lookupAssoc_eq_none_iff set id).mp hl
      simp [addNode, insertNew, h0, hl, hm]

theorem keys_buildNodeSetAux (rows : List AssetRow) :
    ∀ set : List (String × nodeInfo),
      (buildNodeSetAux rows set).map Prod.fst =
        insertAll (endpointIds rows) (set.map Prod.fst) := by
  induction rows with
  | nil => intro set; rfl
  | cons r rest ih =>
    intro set
    simp only [buildNodeSetAux, endpointIds, insertAll]
    rw [ih, keys_addNode, keys_addNode]

theorem insertAll_nodup :
    ∀ (xs : List String) (acc : List String), acc.Nodup → (insertAll xs acc).Nodup := by
  intro xs
  induction xs with
  | nil => intro acc h; exact h
  | cons x rest ih =>
    intro acc h
    refine ih _ ?_
    unfold insertNew
    by_cases h0 : x = ""
    · simpa [h0] using h
    · by_cases hm : x ∈ acc
      · simpa [h0, hm] using h
      · simp only [if_neg h0, if_neg hm]
        exact List.Nodup.append h (List.nodup_singleton x)
          (by intro a ha hb; simp only [List.mem_singleton] at hb; subst hb; exact hm ha)

theorem insertAll_toFinset :
    ∀ (xs : List String) (acc : List String),
      (insertAll xs acc).toFinset =
        acc.toFinset ∪ (xs.filter (fun s => s ≠ "")).toFinset := by
  intro xs
  induction xs with
  | nil => intro acc; simp [insertAll]
  | cons x rest ih =>
    intro acc
    by_cases h0 : x = ""
    · have hfx : (x :: rest).filter (fun s => s ≠ "") = rest.filter (fun s => s ≠ "") := by
        simp [List.filter_cons, h0]
      simp only [insertAll, insertNew, if_pos h0, hfx]
      exact ih acc
    · have hfx : (x :: rest).filter (fun s => s ≠ "") =
          x :: rest.filter (fun s => s ≠ "") := by
        simp [List.filter_cons, h0]
      by_cases hm : x ∈ acc
      · simp only [insertAll, insertNew, if_neg h0, if_pos hm, hfx]
        rw [ih acc]
        ext a
        simp only [Finset.mem_union, List.mem_toFinset, List.toFinset_cons,
          Finset.mem_insert]
        constructor
        · rintro (ha | ha)
          · exact Or.inl ha
          · exact Or.inr (Or.inr ha)
        · rintro (ha | ha | ha)
          · exact Or.inl ha
          · exact Or.inl (ha ▸ hm)
          · exact Or.inr ha
      · simp only [insertAll, insertNew, if_neg h0, if_neg hm, hfx]
        rw [ih (acc ++ [x])]
        ext a
        simp only [Finset.mem_union, List.mem_toFinset, List.toFinset_cons,
          Finset.mem_insert, List.mem_append, List.mem_singleton]
        constructor
        · rintro ((ha | ha) | ha)
          · exact Or.inl ha
          · exact Or.inr (Or.inl ha)
          · exact Or.inr (Or.inr ha)
        · rintro (ha | ha | ha)
          · exact Or.inl (Or.inl ha)
          · exact Or.inl (Or.inr ha)
          · exact Or.inr ha

/-! ## Helper lemmas about the edge list -/

theorem append_pivot_inj {α : Type} (c : α) :
    ∀ (l₁ l₂ r₁ r₂ : List α), c ∉ l₁ → c ∉ l₂ →
      l₁ ++ c :: r₁ = l₂ ++ c :: r₂ → l₁ = l₂ ∧ r₁ = r₂ := by
  intro l₁
  induction l₁ with
  | nil =>
    intro l₂ r₁ r₂ _ h₂ heq
    cases l₂ with
    | nil =>
      simp only [List.nil_append, List.cons.injEq] at heq
      exact ⟨rfl, heq.2⟩
    | cons b l₂' =>
      simp only [List.nil_append, List.cons_append, List.cons.injEq] at heq
      exact absurd (heq.1 ▸ List.mem_cons_self b l₂') h₂
  | cons a l₁' ih =>
    intro l₂ r₁ r₂ h₁ h₂ heq
    cases l₂ with
    | nil =>
      simp only [List.cons_append, List.nil_append, List.cons.injEq] at heq
      exact absurd (heq.1 ▸ List.mem_cons_self a l₁') h₁
    | cons b l₂' =>
      simp only [List.cons_append, List.cons.injEq] at heq
      obtain ⟨hab, heq'⟩ := heq
      subst hab
      obtain ⟨hl, hr⟩ := ih l₂' r₁ r₂
        (fun hc => h₁ (List.mem_cons_of_mem a hc))
        (fun hc => h₂ (List.mem_cons_of_mem a hc)) heq'
      exact ⟨by rw [hl], hr⟩

theorem edgeKey_inj {a b c d : String} (ha : pipeFree a) (hc : pipeFree c)
    (h : edgeKey a b = edgeKey c d) : a = c ∧ b = d := by
  have hdata : a.data ++ '|' :: b.data = c.data ++ '|' :: d.data := by
    have hh := congrArg String.data h
    simpa [edgeKey, String.data_append] using hh
  obtain ⟨h1, h2⟩ := append_pivot_inj '|' a.data c.data b.data d.data ha hc hdata
  exact ⟨String.ext h1, String.ext h2⟩

theorem filter_buildEdgesAux_of_seen (s t : String) :
    ∀ (rows : List AssetRow) (seen : List String), edgeKey s t ∈ seen →
      (buildEdgesAux rows seen).filter
        (fun e => e.Data.Source == s && e.Data.Target == t) = [] := by
  intro rows
  induction rows with
  | nil => intro seen _; rfl
  | cons r rest ih =>
    intro seen hseen
    simp only [buildEdgesAux]
    by_cases hk : edgeKey r.SrcAssetID r.DstAssetID ∈ seen
    · simp only [if_pos hk]
      exact ih seen hseen
    · simp only [if_neg hk]
      have hne : ¬(r.SrcAssetID = s ∧ r.DstAssetID = t) := by
        rintro ⟨h1, h2⟩
        rw [h1, h2] at hk
        exact hk hseen
      have hpred : ((({ Data := { Source := r.SrcAssetID, Target := r.DstAssetID } } :
          CyEdge).Data.Source == s &&
          ({ Data := { Source := r.SrcAssetID, Target := r.DstAssetID } } :
          CyEdge).Data.Target == t)) = false := by
        simp only [Bool.and_eq_false_iff, beq_eq_false_iff_ne, ne_eq]
        by_cases h1 : r.SrcAssetID = s
        · exact Or.inr fun h2 => hne ⟨h1, h2⟩
        · exact Or.inl h1
      rw [List.filter_cons]
      rw [hpred]
      simp only [Bool.false_eq_true, if_false]
      exact ih (edgeKey r.SrcAssetID r.DstAssetID :: seen) (List.mem_cons_of_mem _ hseen)

theorem filter_buildEdgesAux_of_mem (s t : String) :
    ∀ (rows : List AssetRow) (seen : List String),
      (∀ r ∈ rows, pipeFree r.SrcAssetID) → pipeFree s →
      edgeKey s t ∉ seen →
      (∃ r ∈ rows, r.SrcAssetID = s ∧ r.DstAssetID = t) →
      (buildEdgesAux rows seen).filter
        (fun e => e.Data.Source == s && e.Data.Target == t) =
        [{ Data := { Source := s, Target := t } }] := by
  intro rows
  induction rows with
  | nil =>
    rintro seen _ _ _ ⟨r, hr, _⟩
    cases hr
  | cons r rest ih =>
    intro seen hpf hps hnseen hex
    simp only [buildEdgesAux]
    by_cases hk : edgeKey r.SrcAssetID r.DstAssetID ∈ seen
    · simp only [if_pos hk]
      have hne : ¬(r.SrcAssetID = s ∧ r.DstAssetID = t) := by
        rintro ⟨h1, h2⟩
        rw [h1, h2] at hk
        exact hnseen hk
      refine ih seen (fun q hq => hpf q (List.mem_cons_of_mem r hq)) hps hnseen ?_
      obtain ⟨q, hq, hqs⟩ := hex
      rcases List.mem_cons.mp hq with rfl | hq'
      · exact absurd hqs hne
      · exact ⟨q, hq', hqs⟩
    · simp only [if_neg hk]
      by_cases hrp : r.SrcAssetID = s ∧ r.DstAssetID = t
      · obtain ⟨h1, h2⟩ := hrp
        subst h1
        subst h2
        have hrest := filter_buildEdgesAux_of_seen r.SrcAssetID r.DstAssetID rest
          (edgeKey r.SrcAssetID r.DstAssetID :: seen) (List.mem_cons_self _ _)
        rw [List.filter_cons]
        simp only [beq_self_eq_true, Bool.and_self, if_true]
        rw [hrest]
      · have hkey_ne : edgeKey r.SrcAssetID r.DstAssetID ≠ edgeKey s t := by
          intro hkk
          obtain ⟨h1, h2⟩ := edgeKey_inj (hpf r (List.mem_cons_self r rest)) hps hkk
          exact hrp ⟨h1, h2⟩
        have hnseen' : edgeKey s t ∉ edgeKey r.SrcAssetID r.DstAssetID :: seen := by
          intro hh
          rcases List.mem_cons.mp hh with hh' | hh'
          · exact hkey_ne hh'.symm
          · exact hnseen hh'
        have hpred : ((({ Data := { Source := r.SrcAssetID, Target := r.DstAssetID } } :
            CyEdge).Data.Source == s &&
            ({ Data := { Source := r.SrcAssetID, Target := r.DstAssetID } } :
            CyEdge).Data.Target == t)) = false := by
          simp only [Bool.and_eq_false_iff, beq_eq_false_iff_ne, ne_eq]
          by_cases h1 : r.SrcAssetID = s
          · exact Or.inr fun h2 => hrp ⟨h1, h2⟩
          · exact Or.inl h1
        rw [List.filter_cons]
        rw [hpred]
        simp only [Bool.false_eq_true, if_false]
        refine ih (edgeKey r.SrcAssetID r.DstAssetID :: seen)
          (fun q hq => hpf q (List.mem_cons_of_mem r hq)) hps hnseen' ?_
        obtain ⟨q, hq, hqs⟩ := hex
        rcases List.mem_cons.mp hq with rfl | hq'
        · exact absurd hqs hrp
        · exact ⟨q, hq', hqs⟩

/-! ## Helper lemmas about the asset-list filter -/

theorem queryAssetsListItems_eq_filter (records : List Record) (aT sr : String) :
    clientB.queryAssetsListItems records aT sr =
      (records.map clientB.decodeAssetListItem).filter
        (fun item => !(aT != "" && item.AssetType != aT) &&
          !(sr != "" && item.AssetID != sr && item.AssetName != sr)) := by
  induction records with
  | nil => rfl
  | cons rec rest ih =>
    simp only [clientB.queryAssetsListItems, List.map_cons, List.filter_cons]
    by_cases h1 : (aT != "" && (clientB.decodeAssetListItem rec).AssetType != aT) = true
    · simp [h1, ih]
    · by_cases h2 : (sr != "" && (clientB.decodeAssetListItem rec).AssetID != sr &&
          (clientB.decodeAssetListItem rec).AssetName != sr) = true
      · simp [h1, h2, ih]
      · simp [h1, h2, ih]

theorem keepItem_iff (aT sr : String) (it : clientB.AssetListItem) :
    ((!(aT != "" && it.AssetType != aT) &&
      !(sr != "" && it.AssetID != sr && it.AssetName != sr)) = true) ↔
      ((aT ≠ "" → it.AssetType = aT) ∧
       (sr ≠ "" → it.AssetID = sr ∨ it.AssetName = sr)) := by
  simp only [Bool.and_eq_true, Bool.not_eq_true', Bool.and_eq_false_iff,
    bne_eq_false_iff_eq, bne_iff_ne, ne_eq]
  tauto

/-! ## The claims -/

/-- C1 (counterexample): the display-edge key `src + "|" + dst` can collide
across distinct pairs when identifiers contain `'|'`: in `rowsPipe`, two
rows share the ordered pair `("x|", "y")`, yet the display graph contains
zero edges for that pair rather than exactly one, because the earlier row
`("x", "|y")` claimed the same key `"x||y"`. -/
theorem C1_pipe_collision_counterexample :
    (rowsPipe.filter (fun r => r.SrcAssetID == "x|" && r.DstAssetID == "y")).length = 2 ∧
    edgesFor (BuildGraph rowsPipe) "x|" "y" = [] := by
  decide

/-- C1 (amended): provided no source identifier contains the `'|'` key
separator, for every list of connectivity rows containing the ordered pair
`(s, t)` — in particular when two or more rows share it, differing only in
rank — the display graph contains exactly one edge for that pair; and the
edge-detail operation returns all parallel connections for the pair
unfiltered — exactly one entry per distinct rank (the ranks of the stored
edges of one pair being pairwise distinct), with the response's total field
equal to that count. -/
theorem C1_edge_dedup_and_ranks (rows : List AssetRow) (s t : String)
    (E : List StoredEdge) (srcD dstD : MapSI)
    (hpf : ∀ r ∈ rows, pipeFree r.SrcAssetID)
    (hmem : ∃ r ∈ rows, r.SrcAssetID = s ∧ r.DstAssetID = t)
    (hrk : RanksDistinct E) :
    edgesFor (BuildGraph rows) s t = [{ Data := { Source := s, Target := t } }] ∧
    (BuildEdgeDetailResponse srcD dstD
        ((connectionsBetween E s t).map connToMap)).Connections.length
      = ((connectionsBetween E s t).map StoredEdge.rank).dedup.length ∧
    (BuildEdgeDetailResponse srcD dstD
        ((connectionsBetween E s t).map connToMap)).Total
      = ((connectionsBetween E s t).map StoredEdge.rank).dedup.length := by
  have hps : pipeFree s := by
    obtain ⟨r, hr, h1, _⟩ := hmem
    exact h1 ▸ hpf r hr
  have hdisplay : edgesFor (BuildGraph rows) s t =
      [{ Data := { Source := s, Target := t } }] :=
    filter_buildEdgesAux_of_mem s t rows [] hpf hps (by simp) hmem
  have hnodup : ((connectionsBetween E s t).map StoredEdge.rank).Nodup := by
    have h1 : (connectionsBetween E s t).Pairwise fun e₁ e₂ => e₁.rank ≠ e₂.rank := by
      unfold connectionsBetween
      refine List.Pairwise.imp_of_mem ?_
        (List.Pairwise.filter (fun e => e.src == s && e.dst == t) hrk)
      intro a b ha hb hab
      have ha' := (List.mem_filter.mp ha).2
      have hb' := (List.mem_filter.mp hb).2
      simp only [Bool.and_eq_true, beq_iff_eq] at ha' hb'
      exact hab (ha'.1.trans hb'.1.symm) (ha'.2.trans hb'.2.symm)
    exact List.pairwise_map.mpr h1
  have hlen : ((connectionsBetween E s t).map StoredEdge.rank).dedup.length
      = (connectionsBetween E s t).length := by
    rw [List.dedup_eq_self.mpr hnodup, List.length_map]
  refine ⟨hdisplay, ?_, ?_⟩ <;>
    simp [BuildEdgeDetailResponse, hlen]

/-- C1 witness: the §8 scenario — two rows share `("A00001", "A00002")` and
produce exactly one display edge, while the two ranked stored connections
(TCP/443 at rank 0, UDP/1194 at rank 1) are both returned by the edge-detail
operation, with total equal to the two distinct ranks. -/
theorem C1_edge_dedup_and_ranks_witness :
    edgesFor (BuildGraph rowsParallel) "A00001" "A00002" =
      [{ Data := { Source := "A00001", Target := "A00002" } }] ∧
    (BuildEdgeDetailResponse [] []
        ((connectionsBetween edgesParallel "A00001" "A00002").map
          connToMap)).Connections.length
      = ((connectionsBetween edgesParallel "A00001" "A00002").map
          StoredEdge.rank).dedup.length ∧
    (BuildEdgeDetailResponse [] []
        ((connectionsBetween edgesParallel "A00001" "A00002").map connToMap)).Total
      = ((connectionsBetween edgesParallel "A00001" "A00002").map
          StoredEdge.rank).dedup.length :=
  C1_edge_dedup_and_ranks rowsParallel "A00001" "A00002" edgesParallel [] []
    (by decide) (by decide) (by decide)

/-- C2 (counterexample): an endpoint with an empty identifier is skipped by
node registration, so for `rowsEmptySrc = [("" → "A00001")]` the assembled
node count (1) differs from the number of distinct identifiers appearing
across the rows' source and destination fields (2: `""` and `"A00001"`). -/
theorem C2_empty_id_counterexample :
    (BuildGraph rowsEmptySrc).Nodes.length ≠ specDistinctIdCount rowsEmptySrc := by
  decide

/-- C2 (amended): for every list of connectivity rows, the assembled node
count equals the number of distinct NON-EMPTY identifiers appearing across
all rows' source and destination fields (empty identifiers are skipped
during registration and produce no node). -/
theorem C2_node_count_amended (rows : List AssetRow) :
    (BuildGraph rows).Nodes.length = specDistinctNonEmptyIdCount rows := by
  have h1 : (BuildGraph rows).Nodes.length = (buildNodeSetAux rows []).length := by
    simp [BuildGraph, buildNodes]
  have h2 : (buildNodeSetAux rows []).length
      = ((buildNodeSetAux rows []).map Prod.fst).length := by simp
  have h3 : ((buildNodeSetAux rows []).map Prod.fst) = insertAll (endpointIds rows) [] := by
    simpa using keys_buildNodeSetAux rows []
  have hnodup : (insertAll (endpointIds rows) []).Nodup :=
    insertAll_nodup _ [] List.nodup_nil
  have hfin : (insertAll (endpointIds rows) []).toFinset
      = ((endpointIds rows).filter (fun s => s ≠ "")).toFinset := by
    simpa using insertAll_toFinset (endpointIds rows) []
  calc (BuildGraph rows).Nodes.length
      = (insertAll (endpointIds rows) []).length := by rw [h1, h2, h3]
    _ = (insertAll (endpointIds rows) []).toFinset.card :=
        (List.toFinset_card_of_nodup hnodup).symm
    _ = ((endpointIds rows).filter (fun s => s ≠ "")).toFinset.card := by rw [hfin]
    _ = ((endpointIds rows).filter (fun s => s ≠ "")).dedup.length := List.card_toFinset _
    _ = specDistinctNonEmptyIdCount rows := rfl

/-- C3: when the same identifier occurs in more than one row with differing
attribute values, the node in the assembled display graph carries the
attributes of the first row, in list order, that mentioned that identifier
(the source endpoint of a row registering before its destination); no later
row overwrites the first-seen attributes. -/
theorem C3_first_seen_wins (rows : List AssetRow) (id : String) (info : nodeInfo)
    (hid : id ≠ "") (hfirst : specFirstSeenInfo rows id = some info) :
    nodesFor (BuildGraph rows) id = [cyNodeOf id info] := by
  have hkeys : ((buildNodeSetAux rows []).map Prod.fst).Nodup :=
    keys_nodup_buildNodeSetAux rows [] (by simp)
  have hlook : lookupAssoc (buildNodeSetAux rows []) id = some info := by
    rw [@lookupAssoc_buildNodeSetAux_none rows [] id hid rfl]
    exact hfirst
  exact filter_buildNodes_some _ id info hkeys hlook

/-- C3 witness: in `rowsFirstSeen` the identifier `"A00001"` appears in two
rows, named `"first"` then `"second"`; the assembled graph carries exactly
one node for it, with the first row's attributes. -/
theorem C3_first_seen_wins_witness :
    nodesFor (BuildGraph rowsFirstSeen) "A00001" = [cyNodeOf "A00001" infoFirstSeen] :=
  C3_first_seen_wins rowsFirstSeen "A00001" infoFirstSeen (by decide) (by decide)

/-- C9: every node emitted by `BuildGraph` has a non-empty identifier — an
endpoint whose identifier is the empty string is silently skipped during
node registration and never becomes a node in the display graph. -/
theorem C9_nodes_nonempty_id (rows : List AssetRow) (n : CyNode)
    (hn : n ∈ (BuildGraph rows).Nodes) : n.Data.ID ≠ "" := by
  have hex : ∃ a b, (a, b) ∈ buildNodeSetAux rows [] ∧ cyNodeOf a b = n := by
    simpa [BuildGraph, buildNodes] using hn
  obtain ⟨a, b, hp, rfl⟩ := hex
  have hne := fst_ne_empty_buildNodeSetAux rows [] (by intro q hq; cases hq) (a, b) hp
  simpa [cyNodeOf] using hne

/-- C9 witness: the sole node that `rowsEmptySrc` produces (the edge of
that row is still emitted, but its empty source endpoint is not) has a
non-empty identifier. -/
theorem C9_nodes_nonempty_id_witness :
    (cyNodeOf "A00001" (dstInfo (mkRow "" "A00001"))).Data.ID ≠ "" :=
  C9_nodes_nonempty_id rowsEmptySrc
    (cyNodeOf "A00001" (dstInfo (mkRow "" "A00001"))) (by decide)

/-- C4: the identifier validator `ValidateAssetID` accepts a string iff it
matches `^A\d{4,5}$` — the letter `A` followed by exactly 4 or 5 decimal
digits and nothing else; in particular the string `"A1"` is rejected. -/
theorem C4_validator_matches_pattern :
    (∀ s : String, ValidateAssetID s = true ↔ MatchesAssetIDPattern s) ∧
    ValidateAssetID "A1" = false := by
  constructor
  · intro s
    unfold ValidateAssetID MatchesAssetIDPattern
    cases hd : s.data with
    | nil => simp
    | cons c ds =>
      simp only [Bool.and_eq_true, beq_iff_eq, Bool.or_eq_true, List.all_eq_true,
        decide_eq_true_eq, List.cons.injEq]
      constructor
      · rintro ⟨⟨hc, hlen⟩, hdig⟩
        exact ⟨ds, ⟨hc, rfl⟩, hlen, fun ch hch => hdig ch hch⟩
      · rintro ⟨ds', ⟨hc, hds⟩, hlen, hdig⟩
        subst hc
        subst hds
        exact ⟨⟨rfl, hlen⟩, fun ch hch => hdig ch hch⟩
  · decide

/-- C5: for every identifier not matching `^A\d{4,5}$`, the single-asset
detail lookup and the neighbor lookup fail with an invalid-format error
before any session is acquired and before any statement executes against
the store: the effect trace of the rejected call is empty. -/
theorem C5_invalid_id_no_query (st : Store) (id : String)
    (h : ValidateAssetID id = false) :
    clientB.QueryAssetDetail st id =
      (Except.error ("invalid asset ID format: " ++ id), []) ∧
    clientB.QueryNeighbors st id =
      (Except.error ("invalid asset ID format: " ++ id), []) := by
  constructor
  · simp [clientB.QueryAssetDetail, h]
  · simp [clientB.QueryNeighbors, h]

/-- C5 witness: the too-short identifier `"A1"` is rejected by both lookups
with the invalid-format error and an empty effect trace, even against a
healthy store. -/
theorem C5_invalid_id_no_query_witness :
    clientB.QueryAssetDetail emptyStore "A1" =
      (Except.error ("invalid asset ID format: " ++ "A1"), []) ∧
    clientB.QueryNeighbors emptyStore "A1" =
      (Except.error ("invalid asset ID format: " ++ "A1"), []) :=
  C5_invalid_id_no_query emptyStore "A1" (by decide)

/-- C6: when an integer column is absent or SQL NULL the decoders
substitute the field-specific default — 4 for the priority column and 10
for the time-to-bypass column of the asset-detail row, the supplied
default for `safeInt` in general, and 0 for `getInt`'s generic integer
counters — and the substitution never aborts decoding of the row: the
detail lookup still decodes and returns any such record. -/
theorem C6_int_defaults (rec : Record) :
    (absentOrNull rec 6 → mapInt (client.decodeAssetDetailMap rec) "priority" = 4) ∧
    (absentOrNull rec 8 → mapInt (client.decodeAssetDetailMap rec) "ttb" = 10) ∧
    (∀ (idx : Nat) (d : Int), absentOrNull rec idx → safeInt rec idx d = d) ∧
    (∀ idx : Nat, absentOrNull rec idx → getInt rec idx = 0) ∧
    (∀ (st : Store) (id : String), st.sessionAvail = true →
      (∃ rs, st.useOutcome = ExecOutcome.rows rs) →
      st.queryOutcome (Stmt.detailQuery id) = ExecOutcome.rows [rec] →
      (client.QueryAssetDetail st id).1 = Except.ok (client.decodeAssetDetailMap rec)) := by
  have hsafe : ∀ (idx : Nat) (d : Int), absentOrNull rec idx → safeInt rec idx d = d := by
    intro idx d h
    rcases h with h | h <;> simp only [safeInt, h]
  refine ⟨?_, ?_, hsafe, ?_, ?_⟩
  · intro h
    simp [client.decodeAssetDetailMap, mapInt, lookupAssoc, hsafe 6 4 h]
  · intro h
    simp [client.decodeAssetDetailMap, mapInt, lookupAssoc, hsafe 8 10 h]
  · intro idx h
    rcases h with h | h <;> simp only [getInt, h]
  · intro st id hav hrows hq
    obtain ⟨rs, huse⟩ := hrows
    simp [client.QueryAssetDetail, client.openSession, hav, huse, hq]

/-- C6 witness: on the all-NULL detail record, priority decodes to 4, ttb
to 10, `safeInt` to its supplied default, `getInt` to 0, and the detail
lookup still succeeds. -/
theorem C6_int_defaults_witness :
    mapInt (client.decodeAssetDetailMap nullDetailRecord) "priority" = 4 ∧
    mapInt (client.decodeAssetDetailMap nullDetailRecord) "ttb" = 10 ∧
    safeInt nullDetailRecord 6 99 = 99 ∧
    getInt nullDetailRecord 4 = 0 ∧
    (client.QueryAssetDetail nullDetailStore "A00001").1 =
      Except.ok (client.decodeAssetDetailMap nullDetailRecord) := by
  obtain ⟨h1, h2, h3, h4, h5⟩ := C6_int_defaults nullDetailRecord
  exact ⟨h1 (by decide), h2 (by decide), h3 6 99 (by decide), h4 4 (by decide),
    h5 nullDetailStore "A00001" rfl ⟨[], rfl⟩ rfl⟩

/-- C7: every query operation of the client acquires a session through
`openSession` and releases it on every exit path — successful return,
`USE`-selection failure, query-execution failure, unsuccessful result set,
and the not-found path — before returning: every possible effect trace of
every operation is acquire/release balanced. -/
theorem C7_session_release_balanced (st : Store) (id : String) :
    sessionBalanced (client.QueryAssets st).2 ∧
    sessionBalanced (client.QueryAssetsWithDetails st).2 ∧
    sessionBalanced (client.QueryAssetDetail st id).2 ∧
    sessionBalanced (client.QueryNeighbors st id).2 ∧
    sessionBalanced (client.QueryAssetTypes st).2 := by
  obtain ⟨avail, useO, qO⟩ := st
  cases avail with
  | false => exact ⟨rfl, rfl, rfl, rfl, rfl⟩
  | true =>
    cases useO with
    | execError m => exact ⟨rfl, rfl, rfl, rfl, rfl⟩
    | notSucceeded m => exact ⟨rfl, rfl, rfl, rfl, rfl⟩
    | rows rs =>
      refine ⟨?_, ?_, ?_, ?_, ?_⟩
      · cases hq : qO Stmt.assetsQuery <;>
          simp [client.QueryAssets, client.openSession, hq, sessionBalanced,
            countAcquires, countReleases]
      · cases hq : qO Stmt.assetsListQuery <;>
          simp [client.QueryAssetsWithDetails, client.openSession, hq, sessionBalanced,
            countAcquires, countReleases]
      · cases hq : qO (Stmt.detailQuery id) with
        | execError m =>
          simp [client.QueryAssetDetail, client.openSession, hq, sessionBalanced,
            countAcquires, countReleases]
        | notSucceeded m =>
          simp [client.QueryAssetDetail, client.openSession, hq, sessionBalanced,
            countAcquires, countReleases]
        | rows rs2 =>
          cases rs2 <;>
            simp [client.QueryAssetDetail, client.openSession, hq, sessionBalanced,
              countAcquires, countReleases]
      · cases hq : qO (Stmt.neighborsQuery id) <;>
          simp [client.QueryNeighbors, client.openSession, hq, sessionBalanced,
            countAcquires, countReleases]
      · cases hq : qO Stmt.typesQuery <;>
          simp [client.QueryAssetTypes, client.openSession, hq, sessionBalanced,
            countAcquires, countReleases]

/-- C8: for every well-formed identifier with no outbound and no inbound
connects-to edges in the store, the neighbor lookup succeeds — it does not
return an error — and the built response is exactly
`{neighbors: [], total: 0}`. -/
theorem C8_no_neighbors_empty_response (E : List StoredEdge) (st : Store) (id : String)
    (hvalid : ValidateAssetID id = true)
    (hav : st.sessionAvail = true)
    (huse : ∃ rs, st.useOutcome = ExecOutcome.rows rs)
    (hq : st.queryOutcome (Stmt.neighborsQuery id) =
      ExecOutcome.rows (goNeighborsRows E id))
    (hno : ∀ e ∈ E, e.src ≠ id ∧ e.dst ≠ id) :
    (client.QueryNeighbors st id).1 = Except.ok [] ∧
    BuildNeighborsList [] = { Neighbors := [], Total := 0 } := by
  have h1 : E.filter (fun e => e.src == id) = [] :=
    List.filter_eq_nil_iff.mpr (fun e he => by simp [(hno e he).1])
  have h2 : E.filter (fun e => e.dst == id) = [] :=
    List.filter_eq_nil_iff.mpr (fun e he => by simp [(hno e he).2])
  have hrows : goNeighborsRows E id = [] := by
    unfold goNeighborsRows
    simp [h1, h2]
  obtain ⟨rs, huse'⟩ := huse
  constructor
  · simp [client.QueryNeighbors, client.openSession, hav, huse', hq, hrows]
  · rfl

/-- C8 witness: on an empty store, the neighbor lookup for `"A00001"`
succeeds with the empty list and the built response is
`{neighbors: [], total: 0}`. -/
theorem C8_no_neighbors_empty_response_witness :
    (client.QueryNeighbors emptyStore "A00001").1 = Except.ok [] ∧
    BuildNeighborsList [] = { Neighbors := [], Total := 0 } :=
  C8_no_neighbors_empty_response [] emptyStore "A00001" (by decide) rfl ⟨[], rfl⟩
    rfl (by intro e he; cases he)

/-- C10: the optional filters of the asset-list operation are exact-match —
an item survives iff it was decoded from a row, its type name is
string-equal to a non-empty type parameter, and a non-empty search
parameter is string-equal to its asset ID or its asset name; there is no
substring or case-insensitive matching. -/
theorem C10_exact_match_filters (records : List Record) (assetType search : String)
    (item : clientB.AssetListItem) :
    item ∈ clientB.queryAssetsListItems records assetType search ↔
      (item ∈ records.map clientB.decodeAssetListItem ∧
        (assetType ≠ "" → item.AssetType = assetType) ∧
        (search ≠ "" → item.AssetID = search ∨ item.AssetName = search)) := by
  rw [queryAssetsListItems_eq_filter]
  rw [List.mem_filter]
  constructor
  · rintro ⟨hm, hc⟩
    exact ⟨hm, (keepItem_iff assetType search item).mp hc⟩
  · rintro ⟨hm, hc1, hc2⟩
    exact ⟨hm, (keepItem_iff assetType search item).mpr ⟨hc1, hc2⟩⟩

end ESPData
